import Mathlib

/-!
Verification of the `MoveLinesCommand` line-move editor command
(final revision of `moveLinesCommand.ts`): a shallow embedding of the
command's data model and operations, followed by theorems settling the
specification claims.

Lines and columns are 1-based, as in the source. Documents are lists of
line strings; the document text is the lines joined by a newline.
-/

namespace MoveLines

/-- A `Range` in the editor: 1-based start/end line and column numbers. -/
structure VSRange where
  startLineNumber : Nat
  startColumn : Nat
  endLineNumber : Nat
  endColumn : Nat
  deriving Repr, DecidableEq

/-- A `Selection`: 1-based start/end line and column numbers. -/
structure Selection where
  startLineNumber : Nat
  startColumn : Nat
  endLineNumber : Nat
  endColumn : Nat
  deriving Repr, DecidableEq

/-- A `LineRange`: half-open span of line numbers. -/
structure LineRange where
  startLineNumber : Nat
  endLineNumberExclusive : Nat
  deriving Repr, DecidableEq

/-- A single edit operation: a range and a replacement text
(`none` models the `null` replacement, i.e. deletion). -/
structure EditOp where
  range : VSRange
  text : Option String
  deriving Repr, DecidableEq

/-- The text buffer: its list of lines. -/
structure TextModel where
  lines : List String
  deriving Repr, DecidableEq

def TextModel.getLineCount (m : TextModel) : Nat :=
  m.lines.length

def TextModel.getLineContent (m : TextModel) (lineNumber : Nat) : String :=
  m.lines.getD (lineNumber - 1) ""

def TextModel.getLineMaxColumn (m : TextModel) (lineNumber : Nat) : Nat :=
  (m.getLineContent lineNumber).length + 1

def TextModel.getValue (m : TextModel) : String :=
  String.intercalate "\n" m.lines

/-- Character offset of a (line, column) position in the joined text. -/
def TextModel.offsetAt (m : TextModel) (lineNumber column : Nat) : Nat :=
  ((m.lines.take (lineNumber - 1)).foldl (fun acc l => acc + l.length + 1) 0) + (column - 1)

def TextModel.getValueInRange (m : TextModel) (r : VSRange) : String :=
  let a := m.offsetAt r.startLineNumber r.startColumn
  let b := m.offsetAt r.endLineNumber r.endColumn
  String.mk ((m.getValue.toList.drop a).take (b - a))

/-- Split a character list into lines at newline characters
(an empty text yields one empty line, as in the editor model). -/
def splitLines : List Char → List String
  | [] => [""]
  | c :: cs =>
    let rest := splitLines cs
    if c = '\n' then "" :: rest
    else
      match rest with
      | [] => [String.mk [c]]
      | h :: t => String.mk (c :: h.toList) :: t

def TextModel.ofText (t : String) : TextModel :=
  ⟨splitLines t.toList⟩

/-- Insert an offset-edit triple into a list sorted by start offset. -/
def insertSorted (x : Nat × Nat × List Char) :
    List (Nat × Nat × List Char) → List (Nat × Nat × List Char)
  | [] => [x]
  | y :: ys => if x.1 ≤ y.1 then x :: y :: ys else y :: insertSorted x ys

def sortByStart (l : List (Nat × Nat × List Char)) : List (Nat × Nat × List Char) :=
  l.foldr insertSorted []

/-- Modelled from the spec: the Edit Operation Builder / transaction engine,
which "accepts a list of non-overlapping (range, replacementText) edits
... applies them as one atomic transaction" (this engine is an external
collaborator, not part of the excerpted source). Each edit replaces the
text between its range's offsets by its replacement; edits are applied
from the highest start offset down so that original-coordinate offsets
stay valid. -/
def TextModel.applyEdits (m : TextModel) (ops : List EditOp) : TextModel :=
  let offsetOps := ops.map (fun op =>
    (m.offsetAt op.range.startLineNumber op.range.startColumn,
     m.offsetAt op.range.endLineNumber op.range.endColumn,
     (op.text.getD "").toList))
  let sorted := sortByStart offsetOps
  let chars := sorted.foldr
    (fun e acc => acc.take e.1 ++ e.2.2 ++ acc.drop e.2.1)
    m.getValue.toList
  ⟨splitLines chars⟩

/-- The edit builder accumulating edit operations and tracked selections. -/
structure Builder where
  ops : List EditOp
  tracked : List Selection
  deriving Repr, DecidableEq

def Builder.empty : Builder := ⟨[], []⟩

def Builder.addEditOperation (b : Builder) (r : VSRange) (t : Option String) : Builder :=
  { b with ops := b.ops ++ [⟨r, t⟩] }

/-- `trackSelection` returns a token (here: the index of the tracked
selection) together with the updated builder. -/
def Builder.trackSelection (b : Builder) (s : Selection) : Nat × Builder :=
  (b.tracked.length, { b with tracked := b.tracked ++ [s] })

/-- Leading whitespace (space and tab characters) of a line, as computed
by the `strings.getLeadingWhitespace` buffer helper. Modelled from the
spec: the Indent Arithmetic collaborator "converts between
leading-whitespace strings and a canonical space-count". -/
def getLeadingWhitespace (s : String) : String :=
  String.mk (s.toList.takeWhile (fun c => c == ' ' || c == '\t'))

/-- Whether `strings.lastNonWhitespaceIndex` returns an index `>= 0`,
i.e. the string has a character other than space or tab. Modelled from
the spec: blank lines "carry no indentation signal" and are skipped. -/
def lastNonWhitespaceIndexGe0 (s : String) : Bool :=
  s.toList.any (fun c => !(c == ' ' || c == '\t'))

/-- `trimLeft` of the command: strips the leading whitespace run
(the JS regex replacement of a leading whitespace run by nothing). -/
def trimLeft (s : String) : String :=
  String.mk (s.toList.dropWhile Char.isWhitespace)

/-- `pat.isPrefixOf` some suffix of `hay`: the semantics of a JS
`hay.indexOf(pat) >= 0` substring test. -/
def hasSubstring (pat : List Char) : List Char → Bool
  | [] => pat.isPrefixOf ([] : List Char)
  | c :: t => pat.isPrefixOf (c :: t) || hasSubstring pat t

/-- JS `s.indexOf(pat) >= 0`. -/
def strContainsJS (s pat : String) : Bool :=
  hasSubstring pat.toList s.toList

/-- Modelled from the spec: the ordered auto-indent strategy severity
(`None < Brackets < Advanced < Full`); `Full` is the largest value. -/
def EditorAutoIndentStrategyFull : Nat := 4

/-- Modelled from the spec: the indent-rule metadata is "a bitmask
including a 'decrease indent' flag"; this is that flag's bit. -/
def IndentConstsDecreaseMask : Nat := 2

/-- The `IndentAction` of an enter rule. -/
inductive IndentAction where
  | None
  | Indent
  | IndentOutdent
  | Outdent
  deriving Repr, DecidableEq

/-- The fields of a `CompleteEnterAction` the command reads. -/
structure CompleteEnterAction where
  indentation : String
  appendText : String
  indentAction : IndentAction
  deriving Repr, DecidableEq

/-- The external collaborators of the command (tokenization state,
language configuration, indentation oracle, indent arithmetic), plus the
model's indentation options. These are consumed via narrow interfaces
and are parameters of the embedding. -/
structure LangEnv where
  tabSize : Nat
  indentSize : Nat
  insertSpaces : Bool
  isCheapToTokenize : Nat → Bool
  getLanguageIdAtPosition : Nat → Nat → String
  indentRulesSupport : String → Option Unit
  getEnterAction : Nat → VSRange → Option CompleteEnterAction
  getGoodIndentForLine : Nat → (Nat → String) → String → Nat → Option String
  getIndentMetadata : Nat → Option Nat
  getSpaceCnt : String → Nat → Nat
  generateIndent : Int → Nat → Bool → String
  shiftIndent : String → String
  unshiftIndent : String → String

/-- The command instance: construction-time fields plus the two mutable
fields (`selectionId`, `moveEndLineSelectionShrink`), which start as
`none` and `false`. -/
structure MoveLinesCommand where
  selection : Selection
  isMovingDown : Bool
  autoIndent : Nat
  batch : LineRange
  isFirstInBatch : Bool
  selectionId : Option Nat
  moveEndLineSelectionShrink : Bool

def MoveLinesCommand.shouldAutoIndent (cmd : MoveLinesCommand) (env : LangEnv)
    (selection : Selection) : Bool :=
  if cmd.autoIndent < EditorAutoIndentStrategyFull then
    false
  else if !(env.isCheapToTokenize selection.startLineNumber) then
    false
  else
    let languageAtSelectionStart := env.getLanguageIdAtPosition selection.startLineNumber 1
    let languageAtSelectionEnd := env.getLanguageIdAtPosition selection.endLineNumber 1
    if languageAtSelectionStart ≠ languageAtSelectionEnd then
      false
    else if env.indentRulesSupport languageAtSelectionStart = none then
      false
    else
      true

def MoveLinesCommand.parseEnterResult (cmd : MoveLinesCommand) (env : LangEnv)
    (model : TextModel) (tabSize line : Nat)
    (enter : Option CompleteEnterAction) : Option Int :=
  match enter with
  | some enter =>
    let enterPfx := enter.indentation
    let enterPfx :=
      if enter.indentAction = IndentAction.None then
        enter.indentation ++ enter.appendText
      else if enter.indentAction = IndentAction.Indent then
        enter.indentation ++ enter.appendText
      else if enter.indentAction = IndentAction.IndentOutdent then
        enter.indentation
      else if enter.indentAction = IndentAction.Outdent then
        env.unshiftIndent enter.indentation ++ enter.appendText
      else
        enterPfx
    let movingLineText := model.getLineContent line
    if strContainsJS (trimLeft movingLineText) (trimLeft enterPfx) then
      let oldIndentation := getLeadingWhitespace (model.getLineContent line)
      let newIndentation := getLeadingWhitespace enterPfx
      let newIndentation :=
        match env.getIndentMetadata line with
        | some md =>
          if md &&& IndentConstsDecreaseMask ≠ 0 then env.unshiftIndent newIndentation
          else newIndentation
        | none => newIndentation
      let newSpaceCnt := env.getSpaceCnt newIndentation tabSize
      let oldSpaceCnt := env.getSpaceCnt oldIndentation tabSize
      some ((newSpaceCnt : Int) - (oldSpaceCnt : Int))
    else
      none
  | none => none

/-- The `while (validPrecedingLine >= 1)` search for the nearest line at
or below `n` whose content has a non-whitespace character; `0` when none
exists (the loop ran past line 1). -/
def findValidPrecedingLine (model : TextModel) : Nat → Nat
  | 0 => 0
  | n + 1 =>
    if lastNonWhitespaceIndexGe0 (model.getLineContent (n + 1)) then n + 1
    else findValidPrecedingLine model n

def MoveLinesCommand.matchEnterRuleMovingDown (cmd : MoveLinesCommand) (env : LangEnv)
    (model : TextModel) (tabSize line nextLine : Nat) (nextLineText : String) : Option Int :=
  if lastNonWhitespaceIndexGe0 nextLineText then
    let maxColumn := model.getLineMaxColumn nextLine
    cmd.parseEnterResult env model tabSize line
      (env.getEnterAction cmd.autoIndent ⟨nextLine, maxColumn, nextLine, maxColumn⟩)
  else
    let validPrecedingLine := findValidPrecedingLine model (line - 1)
    if validPrecedingLine < 1 ∨ line > model.getLineCount then
      none
    else
      let maxColumn := model.getLineMaxColumn validPrecedingLine
      cmd.parseEnterResult env model tabSize line
        (env.getEnterAction cmd.autoIndent
          ⟨validPrecedingLine, maxColumn, validPrecedingLine, maxColumn⟩)

def MoveLinesCommand.matchEnterRuleMoveingUp (cmd : MoveLinesCommand) (env : LangEnv)
    (model : TextModel) (tabSize line prevLine : Nat) (prevLineText : String) : Option Int :=
  let validPrecedingLine :=
    if 1 ≤ prevLine ∧ lastNonWhitespaceIndexGe0 prevLineText then prevLine
    else findValidPrecedingLine model (prevLine - 1)
  if validPrecedingLine < 1 ∨ line > model.getLineCount then
    none
  else
    let maxColumn := model.getLineMaxColumn validPrecedingLine
    cmd.parseEnterResult env model tabSize line
      (env.getEnterAction cmd.autoIndent
        ⟨validPrecedingLine, maxColumn, validPrecedingLine, maxColumn⟩)

/-- The body of the per-line loop of `getIndentEditsOfMovingBlock`:
one iteration at line `i`, threading the builder and the
`moveEndLineSelectionShrink` flag. -/
def indentEditStep (env : LangEnv) (model : TextModel) (s : Selection) (tabSize : Nat)
    (insertSpaces : Bool) (offset : Int) (acc : Builder × Bool) (i : Nat) : Builder × Bool :=
  let lineContent := model.getLineContent i
  let originalIndent := getLeadingWhitespace lineContent
  let originalSpacesCnt := env.getSpaceCnt originalIndent tabSize
  let newSpacesCnt : Int := (originalSpacesCnt : Int) + offset
  let newIndent := env.generateIndent newSpacesCnt tabSize insertSpaces
  if newIndent ≠ originalIndent then
    let b := acc.1.addEditOperation ⟨i, 1, i, originalIndent.length + 1⟩ (some newIndent)
    let sh :=
      if i = s.endLineNumber ∧ s.endColumn ≤ originalIndent.length + 1 ∧ newIndent = "" then
        true
      else acc.2
    (b, sh)
  else acc

/-- The lines visited by a loop `for i from a to b` (inclusive). -/
def lineSpan (a b : Nat) : List Nat :=
  (List.range (b + 1 - a)).map (fun k => a + k)

/-- `getIndentEditsOfMovingBlock`: for each line of the selection's span,
emit a replacement of the leading-whitespace span when the regenerated
indentation differs. -/
def getIndentEditsOfMovingBlock (env : LangEnv) (model : TextModel) (builder : Builder)
    (s : Selection) (tabSize : Nat) (insertSpaces : Bool) (offset : Int)
    (shrink : Bool) : Builder × Bool :=
  (lineSpan s.startLineNumber s.endLineNumber).foldl
    (indentEditStep env model s tabSize insertSpaces offset)
    (builder, shrink)

/-- The virtual line-content view installed on the virtual model for the
indent-rule fallback: "Given a line number from before the change return
the line content after the change". -/
def virtualGetLineContent (model : TextModel) (isMovingDown : Bool)
    (srcStartLine srcEndLine prevLine nextLine lineNumber : Nat) : String :=
  if isMovingDown then
    if lineNumber = srcStartLine then
      model.getLineContent nextLine
    else if lineNumber ≤ nextLine then
      model.getLineContent (lineNumber + 1)
    else
      model.getLineContent lineNumber
  else
    if lineNumber = srcEndLine then
      model.getLineContent prevLine
    else if lineNumber ≥ prevLine then
      model.getLineContent (lineNumber - 1)
    else
      model.getLineContent lineNumber

def MoveLinesCommand.getEditOperations (cmd : MoveLinesCommand) (env : LangEnv)
    (model : TextModel) (builder : Builder) : MoveLinesCommand × Builder :=
  let modelLineCount := model.getLineCount
  if cmd.isMovingDown = true ∧ cmd.batch.endLineNumberExclusive - 1 = modelLineCount then
    let tb := builder.trackSelection cmd.selection
    ({ cmd with selectionId := some tb.1 }, tb.2)
  else if cmd.isMovingDown = false ∧ cmd.batch.startLineNumber = 1 then
    let tb := builder.trackSelection cmd.selection
    ({ cmd with selectionId := some tb.1 }, tb.2)
  else
    let s := cmd.selection
    let builder := (builder.trackSelection s).2
    let tabSize := env.tabSize
    let insertSpaces := env.insertSpaces
    if cmd.isFirstInBatch then
      let srcStartLine := cmd.batch.startLineNumber
      let srcEndLine := cmd.batch.endLineNumberExclusive - 1
      let srcEndLineLen := model.getLineMaxColumn srcEndLine
      let text := model.getValueInRange ⟨srcStartLine, 1, srcEndLine, srcEndLineLen⟩
      let prevLine := cmd.batch.startLineNumber - 1
      let nextLine := cmd.batch.endLineNumberExclusive
      let builder :=
        if cmd.isMovingDown then
          builder.addEditOperation ⟨srcStartLine, 1, nextLine, 1⟩ none
        else
          let prevLineLen := model.getLineMaxColumn prevLine
          builder.addEditOperation ⟨prevLine, prevLineLen, srcEndLine, srcEndLineLen⟩ none
      let builder :=
        if cmd.isMovingDown then
          let dstLine := cmd.batch.startLineNumber - 1
          builder.addEditOperation ⟨dstLine, 1, dstLine, 1⟩ (some ("\n" ++ text))
        else
          let dstLine := cmd.batch.endLineNumberExclusive
          builder.addEditOperation ⟨dstLine, 1, dstLine, 1⟩ (some (text ++ "\n"))
      if cmd.shouldAutoIndent env s then
        let ret :=
          if cmd.isMovingDown then
            cmd.matchEnterRuleMovingDown env model tabSize srcStartLine nextLine text
          else
            cmd.matchEnterRuleMoveingUp env model tabSize srcStartLine prevLine text
        match ret with
        | some r =>
          if r ≠ 0 then
            let bs := getIndentEditsOfMovingBlock env model builder s tabSize insertSpaces r
              cmd.moveEndLineSelectionShrink
            ({ cmd with moveEndLineSelectionShrink := bs.2 }, bs.1)
          else
            (cmd, builder)
        | none =>
          let vglc := virtualGetLineContent model cmd.isMovingDown srcStartLine srcEndLine
            prevLine nextLine
          let affectedStartLine := if cmd.isMovingDown then srcStartLine else prevLine
          let affectedEndLine := if cmd.isMovingDown then nextLine else srcEndLine
          let res := (lineSpan affectedStartLine affectedEndLine).foldl
            (fun (acc : Builder × Bool) i =>
              match env.getGoodIndentForLine cmd.autoIndent vglc
                  (env.getLanguageIdAtPosition i 1) i with
              | some lineIndent =>
                let oldIndent := getLeadingWhitespace (vglc i)
                let newSpaceCnt := env.getSpaceCnt lineIndent tabSize
                let oldSpaceCnt := env.getSpaceCnt oldIndent tabSize
                if newSpaceCnt ≠ oldSpaceCnt then
                  getIndentEditsOfMovingBlock env model acc.1 s tabSize insertSpaces
                    ((newSpaceCnt : Int) - (oldSpaceCnt : Int)) acc.2
                else acc
              | none => acc)
            (builder, cmd.moveEndLineSelectionShrink)
          ({ cmd with moveEndLineSelectionShrink := res.2 }, res.1)
      else
        (cmd, builder)
    else
      (cmd, builder.addEditOperation ⟨1, 1, 1, 1⟩ none)

/-- `computeCursorState`: resolves the tracked selection, applies the
end-shrink clamp, then discards that result and returns the original
selection with both line numbers shifted by the displacement. The
`helper` parameter models `helper.getTrackedSelection` applied to
`this._selectionId!` (so it receives the possibly-`none` token). -/
def MoveLinesCommand.computeCursorState (cmd : MoveLinesCommand)
    (helper : Option Nat → Selection) : Selection :=
  let result := helper cmd.selectionId
  let result :=
    if cmd.moveEndLineSelectionShrink ∧ result.startLineNumber < result.endLineNumber then
      { result with endColumn := 2 }
    else
      result
  let result := cmd.selection
  if cmd.isMovingDown then
    ⟨result.startLineNumber + 1, result.startColumn,
     result.endLineNumber + 1, result.endColumn⟩
  else
    ⟨result.startLineNumber - 1, result.startColumn,
     result.endLineNumber - 1, result.endColumn⟩

/-- Modelled from the spec: `spaceCount(indentString, tabSize)`, the
canonical indentation width in spaces of a leading-whitespace string at
a given tab width (a tab advances to the next multiple of the tab
width). -/
def getSpaceCnt (s : String) (tabSize : Nat) : Nat :=
  s.toList.foldl (fun acc c => if c = '\t' then acc + (tabSize - acc % tabSize) else acc + 1) 0

/-- Modelled from the spec: `generateIndent(spaceCount, tabSize,
insertSpaces)`, canonical whitespace for a target space-count under the
space/tab insertion policy. -/
def generateIndent (spacesCnt : Int) (tabSize : Nat) (insertSpaces : Bool) : String :=
  let n := spacesCnt.toNat
  if insertSpaces then String.mk (List.replicate n ' ')
  else String.mk (List.replicate (n / tabSize) '\t' ++ List.replicate (n % tabSize) ' ')

/-- A concrete external environment: plain-text tokenization state (no
indent rules, no enter action, cheap-to-tokenize false), tab size 4,
space insertion, and the modelled indent arithmetic. -/
def envTriv : LangEnv where
  tabSize := 4
  indentSize := 4
  insertSpaces := true
  isCheapToTokenize := fun _ => false
  getLanguageIdAtPosition := fun _ _ => "plaintext"
  indentRulesSupport := fun _ => none
  getEnterAction := fun _ _ => none
  getGoodIndentForLine := fun _ _ _ _ => none
  getIndentMetadata := fun _ => none
  getSpaceCnt := getSpaceCnt
  generateIndent := generateIndent
  shiftIndent := id
  unshiftIndent := id

/-- The spec's running example document. -/
def modelC1 : TextModel := ⟨["if (x) \x7b", "  foo();", "\x7d", "bar();"]⟩

/-- Move-down command for the example: caret on line 2, auto-indent
disabled (strategy 0), batch = line 2 only, first in batch. -/
def cmdC1 : MoveLinesCommand := ⟨⟨2, 1, 2, 1⟩, true, 0, ⟨2, 3⟩, true, none, false⟩

/-- Four-line document for the round-trip check. -/
def modelRT : TextModel := ⟨["A", "B", "C", "D"]⟩

/-- Move line 2 down (auto-indent disabled, first in batch). -/
def cmdRTdown : MoveLinesCommand := ⟨⟨2, 1, 2, 1⟩, true, 0, ⟨2, 3⟩, true, none, false⟩

/-- The document after applying the move-down edits. -/
def modelRTmid : TextModel :=
  modelRT.applyEdits (cmdRTdown.getEditOperations envTriv modelRT Builder.empty).2.ops

/-- Move line 3 (where the block would now sit) up. -/
def cmdRTup : MoveLinesCommand := ⟨⟨3, 1, 3, 1⟩, false, 0, ⟨3, 4⟩, true, none, false⟩

/-- Two-line document for the boundary no-op check. -/
def modelBd : TextModel := ⟨["a", "b"]⟩

/-- Move the last line down: the batch's last line is the document's
last line. -/
def cmdBdDown : MoveLinesCommand := ⟨⟨2, 1, 2, 1⟩, true, 0, ⟨2, 3⟩, true, none, false⟩

/-- A non-first-in-batch move-down instance for the batch of line 2
(at the boundary on a two-line document, away from it on a longer
one). -/
def cmdNonFirst : MoveLinesCommand := ⟨⟨2, 1, 2, 1⟩, true, 0, ⟨2, 3⟩, false, none, false⟩

/-- A command state after an execution that set the end-shrink flag,
with a multi-line selection. -/
def cmdShrink : MoveLinesCommand := ⟨⟨1, 1, 2, 5⟩, true, 0, ⟨1, 3⟩, true, none, true⟩

/-- A resolver for the tracked-selection token that reports the
selection at `(1,1)-(2,5)` (start line strictly below end line). -/
def helperShrink : Option Nat → Selection := fun _ => ⟨1, 1, 2, 5⟩

/-- One-line document whose line 1 contains the enter-rule prefix `"x"`
strictly inside, not at the start. -/
def modelPfx : TextModel := ⟨["ax"]⟩

/-- A command with auto-indent Full, used to exercise
`parseEnterResult` directly. -/
def cmdPfx : MoveLinesCommand := ⟨⟨1, 1, 1, 1⟩, true, 4, ⟨1, 2⟩, true, none, false⟩

/-- The predicted enter-rule prefix, written as the claim states it:
`indentation ++ appendText` for the `None` and `Indent` actions, the
indentation alone for `IndentOutdent`, and the indentation unshifted by
one indent level plus `appendText` for `Outdent`. -/
def enterPrefixOf (env : LangEnv) (enter : CompleteEnterAction) : String :=
  match enter.indentAction with
  | IndentAction.None => enter.indentation ++ enter.appendText
  | IndentAction.Indent => enter.indentation ++ enter.appendText
  | IndentAction.IndentOutdent => enter.indentation
  | IndentAction.Outdent => env.unshiftIndent enter.indentation ++ enter.appendText

/-- The indentation edit for one line, written as the claim states it:
a replacement of exactly the old leading-whitespace span (column 1
through old indent length + 1) by whitespace regenerated from the
line's current space-count plus the delta (no clamping at zero), and no
edit when the regenerated indent equals the existing indent. -/
def indentEditFor (env : LangEnv) (model : TextModel) (tabSize : Nat)
    (insertSpaces : Bool) (offset : Int) (i : Nat) : Option EditOp :=
  let originalIndent := getLeadingWhitespace (model.getLineContent i)
  let newIndent :=
    env.generateIndent ((env.getSpaceCnt originalIndent tabSize : Int) + offset)
      tabSize insertSpaces
  if newIndent ≠ originalIndent then
    some ⟨⟨i, 1, i, originalIndent.length + 1⟩, some newIndent⟩
  else
    none

/-- The indentation edits of the moving block as the claim states them:
the per-line edits of `indentEditFor` over the selection's span. -/
def indentEditsSpec (env : LangEnv) (model : TextModel) (s : Selection)
    (tabSize : Nat) (insertSpaces : Bool) (offset : Int) : List EditOp :=
  (lineSpan s.startLineNumber s.endLineNumber).filterMap
    (indentEditFor env model tabSize insertSpaces offset)

theorem indentEditStep_fst_ops (env : LangEnv) (model : TextModel) (s : Selection)
    (tabSize : Nat) (insertSpaces : Bool) (offset : Int) (acc : Builder × Bool) (i : Nat) :
    ((indentEditStep env model s tabSize insertSpaces offset acc i).1).ops =
      acc.1.ops ++ (indentEditFor env model tabSize insertSpaces offset i).toList := by
  unfold indentEditStep indentEditFor
  dsimp only
  split
  · simp [Builder.addEditOperation]
  · simp

theorem indentFoldl_ops (env : LangEnv) (model : TextModel) (s : Selection)
    (tabSize : Nat) (insertSpaces : Bool) (offset : Int) :
    ∀ (ks : List Nat) (acc : Builder × Bool),
      ((ks.foldl (indentEditStep env model s tabSize insertSpaces offset) acc).1).ops
        = acc.1.ops ++ ks.filterMap (indentEditFor env model tabSize insertSpaces offset) := by
  intro ks
  induction ks with
  | nil => intro acc; simp
  | cons i t ih =>
    intro acc
    rw [List.foldl_cons, ih, indentEditStep_fst_ops]
    cases h : indentEditFor env model tabSize insertSpaces offset i <;>
      simp [h, List.filterMap_cons]

/-- Claim C1: for the document `["if (x) {", "  foo();", "}", "bar();"]`
with a selection on line 2, the move-down command with auto-indent
disabled is claimed to yield `["if (x) {", "}", "  foo();", "bar();"]`
with the selection on line 3.  The code's edits instead produce
`["", "  foo();if (x) {", "}", "bar();"]` (the insertion destination of
the moved block is computed for the wrong direction), so the document
part of the claim fails; the returned selection is `(3,1)-(3,1)`. -/
theorem C1_move_down_example_diverges :
    (modelC1.applyEdits (cmdC1.getEditOperations envTriv modelC1 Builder.empty).2.ops).lines
        = ["", "  foo();if (x) \x7b", "\x7d", "bar();"] ∧
    (modelC1.applyEdits (cmdC1.getEditOperations envTriv modelC1 Builder.empty).2.ops).lines
        ≠ ["if (x) \x7b", "\x7d", "  foo();", "bar();"] ∧
    ((cmdC1.getEditOperations envTriv modelC1 Builder.empty).1).computeCursorState
        (fun _ => cmdC1.selection) = ⟨3, 1, 3, 1⟩ := by
  decide

/-- Claim C2: moving a block down and then up (auto-indent disabled) is
claimed to restore the original text.  On `["A", "B", "C", "D"]` with
the block at line 2, the move-down edits already corrupt the document
to `["", "BA", "C", "D"]`, and the subsequent move-up of line 3 leaves
it there, so the round trip does not restore the original text. -/
theorem C2_round_trip_diverges :
    modelRTmid.lines = ["", "BA", "C", "D"] ∧
    (modelRTmid.applyEdits
        (cmdRTup.getEditOperations envTriv modelRTmid Builder.empty).2.ops).lines
      = ["", "BA", "C", "D"] ∧
    (modelRTmid.applyEdits
        (cmdRTup.getEditOperations envTriv modelRTmid Builder.empty).2.ops).lines
      ≠ modelRT.lines := by
  decide

/-- Claim C3: moving the last line down produces no edit and leaves the
document unchanged (both hold), but the claim that the final selection
equals the original selection fails: `computeCursorState`
unconditionally shifts the selection's line numbers by the displacement,
returning `(3,1)-(3,1)` — one line past the two-line document — instead
of the original `(2,1)-(2,1)`. -/
theorem C3_boundary_noop_shifts_selection :
    (cmdBdDown.getEditOperations envTriv modelBd Builder.empty).2.ops = [] ∧
    modelBd.applyEdits (cmdBdDown.getEditOperations envTriv modelBd Builder.empty).2.ops
        = modelBd ∧
    ((cmdBdDown.getEditOperations envTriv modelBd Builder.empty).1).computeCursorState
        (fun _ => cmdBdDown.selection) = ⟨3, 1, 3, 1⟩ ∧
    cmdBdDown.selection = ⟨2, 1, 2, 1⟩ := by
  decide

/-- Claim C6: the virtual line-content view is claimed to return the
live buffer's content unchanged for lines outside the affected span.
On `["A", "B", "C", "D"]`: moving line 3 down (span lines 3–4), line 1
is outside the span yet the view returns `"B"` instead of `"A"`; moving
line 2 up (span lines 1–2), line 4 is outside the span yet the view
returns `"C"` instead of `"D"` (the bound checks of the earlier
revisions' `convertLineNumber` were dropped). -/
theorem C6_virtual_model_out_of_span_diverges :
    virtualGetLineContent modelRT true 3 3 2 4 1 = "B" ∧
    modelRT.getLineContent 1 = "A" ∧
    virtualGetLineContent modelRT false 2 2 1 3 4 = "C" ∧
    modelRT.getLineContent 4 = "D" := by
  decide

/-- Claim C9: for each line of the selection's span, the edit emitted by
`getIndentEditsOfMovingBlock` replaces exactly the line's old
leading-whitespace span (column 1 through old indent length + 1) with
whitespace regenerated from the line's current space-count plus the
delta — the raw (possibly negative) sum is passed with no clamping at
zero — and no other part of the line is touched; a line whose
regenerated indent equals its existing indent receives no edit.  Stated
as: the operations appended by the call are exactly `indentEditsSpec`. -/
theorem C9_indent_edits_exact (env : LangEnv) (model : TextModel) (builder : Builder)
    (s : Selection) (tabSize : Nat) (insertSpaces : Bool) (offset : Int) (shrink : Bool) :
    ((getIndentEditsOfMovingBlock env model builder s tabSize insertSpaces offset shrink).1).ops
      = builder.ops ++ indentEditsSpec env model s tabSize insertSpaces offset := by
  unfold getIndentEditsOfMovingBlock indentEditsSpec
  exact indentFoldl_ops env model s tabSize insertSpaces offset
    (lineSpan s.startLineNumber s.endLineNumber) (builder, shrink)

/-- Claim C7: `shouldAutoIndent` returns `true` if and only if the
configured auto-indent strategy is at least `Full`, the selection's
start line is cheap to tokenize, the language id at the selection's
start line equals the language id at its end line, and the language
configuration for that language has a non-null indent-rules support
object. -/
theorem C7_shouldAutoIndent_iff (cmd : MoveLinesCommand) (env : LangEnv) (s : Selection) :
    cmd.shouldAutoIndent env s = true ↔
      (EditorAutoIndentStrategyFull ≤ cmd.autoIndent ∧
       env.isCheapToTokenize s.startLineNumber = true ∧
       env.getLanguageIdAtPosition s.startLineNumber 1
          = env.getLanguageIdAtPosition s.endLineNumber 1 ∧
       env.indentRulesSupport (env.getLanguageIdAtPosition s.startLineNumber 1) ≠ none) := by
  unfold MoveLinesCommand.shouldAutoIndent
  split_ifs <;> simp_all

/-- Claim C8 (amended): `parseEnterResult` returns a space-count delta
exactly when the enter action is non-null and the moving line's trimmed
content CONTAINS (JS `indexOf(...) >= 0`, not "begins with") the
trimmed predicted prefix, where the predicted prefix is
`indentation ++ appendText` for the `None` and `Indent` actions, the
indentation alone for `IndentOutdent`, and the indentation unshifted by
one indent level plus `appendText` for `Outdent` (the unshift applied
before the delta is measured); otherwise it returns null. -/
theorem C8_parseEnterResult_some_iff (cmd : MoveLinesCommand) (env : LangEnv)
    (model : TextModel) (tabSize line : Nat) (enter : Option CompleteEnterAction) :
    (cmd.parseEnterResult env model tabSize line enter).isSome = true ↔
      ∃ e, enter = some e ∧
        strContainsJS (trimLeft (model.getLineContent line))
          (trimLeft (enterPrefixOf env e)) = true := by
  cases enter with
  | none => simp [MoveLinesCommand.parseEnterResult]
  | some e =>
    obtain ⟨ind, app, act⟩ := e
    cases act <;>
      simp only [MoveLinesCommand.parseEnterResult, enterPrefixOf] <;>
      split_ifs with h <;>
      simp_all

/-- Claim C8, counterexample to the claim as stated: with the enter
action `{indentation := "", appendText := "x", action := None}` the
predicted prefix is `"x"`; the moving line `"ax"` does not begin with
it (so the claim as stated demands a null result), yet the trimmed line
contains it, and `parseEnterResult` returns the delta `0`, not null. -/
theorem C8_counterexample :
    cmdPfx.parseEnterResult envTriv modelPfx 4 1
        (some ⟨"", "x", IndentAction.None⟩) = some 0 ∧
    (trimLeft (enterPrefixOf envTriv ⟨"", "x", IndentAction.None⟩)).toList.isPrefixOf
        (trimLeft (modelPfx.getLineContent 1)).toList = false ∧
    strContainsJS (trimLeft (modelPfx.getLineContent 1))
        (trimLeft (enterPrefixOf envTriv ⟨"", "x", IndentAction.None⟩)) = true := by
  decide

/-- Claim C4, counterexample to the claim as stated: a command instance
whose first-in-batch flag is clear is claimed always to emit exactly one
no-op edit; but when the batch sits at a document boundary (here:
moving line 2 of a two-line document down) the boundary check returns
first and the instance emits no edit operation at all. -/
theorem C4_counterexample :
    cmdNonFirst.isFirstInBatch = false ∧
    (cmdNonFirst.getEditOperations envTriv modelBd Builder.empty).2.ops = [] := by
  decide

/-- Claim C4 (amended): when the batch is not at a document boundary, a
command instance whose first-in-batch flag is clear emits exactly one
harmless no-op edit operation — a null replacement at the fixed range
(1,1)-(1,1) — requests selection tracking, and emits no other edit. -/
theorem C4_nonfirst_single_noop (cmd : MoveLinesCommand) (env : LangEnv) (model : TextModel)
    (builder : Builder)
    (hf : cmd.isFirstInBatch = false)
    (hd : ¬(cmd.isMovingDown = true ∧ cmd.batch.endLineNumberExclusive - 1 = model.getLineCount))
    (hu : ¬(cmd.isMovingDown = false ∧ cmd.batch.startLineNumber = 1)) :
    (cmd.getEditOperations env model builder).2.ops
        = builder.ops ++ [⟨⟨1, 1, 1, 1⟩, none⟩] ∧
    (cmd.getEditOperations env model builder).2.tracked
        = builder.tracked ++ [cmd.selection] := by
  unfold MoveLinesCommand.getEditOperations
  rw [if_neg hd, if_neg hu]
  simp [hf, Builder.trackSelection, Builder.addEditOperation]

/-- Witness for the amended claim C4: the non-first instance on the
four-line document (batch of line 2, not at a boundary) emits exactly
the single no-op edit and tracks its selection. -/
theorem C4_nonfirst_single_noop_witness :
    (cmdNonFirst.getEditOperations envTriv modelRT Builder.empty).2.ops
        = Builder.empty.ops ++ [⟨⟨1, 1, 1, 1⟩, none⟩] ∧
    (cmdNonFirst.getEditOperations envTriv modelRT Builder.empty).2.tracked
        = Builder.empty.tracked ++ [cmdNonFirst.selection] :=
  C4_nonfirst_single_noop cmdNonFirst envTriv modelRT Builder.empty rfl
    (by decide) (by decide)

/-- Claim C5, counterexample to the claim as stated: with the
end-shrink flag set and the resolved selection's start line strictly
below its end line, the claim demands the final selection's end column
be clamped to 2; the code computes that clamp but then discards it, and
returns the original selection `(1,1)-(2,5)` shifted down one line —
end column 5, not 2. -/
theorem C5_counterexample :
    cmdShrink.moveEndLineSelectionShrink = true ∧
    (helperShrink cmdShrink.selectionId).startLineNumber
        < (helperShrink cmdShrink.selectionId).endLineNumber ∧
    cmdShrink.computeCursorState helperShrink = ⟨2, 1, 3, 5⟩ ∧
    (cmdShrink.computeCursorState helperShrink).endColumn ≠ 2 := by
  decide

/-- Claim C5 (amended): `computeCursorState` calls the resolver on the
tracked-selection token and computes the column-2 clamp when the
end-shrink flag is set, but discards both; the returned selection is
always the ORIGINAL selection with both line numbers shifted by +1
(moving down) or -1 (moving up) and the original columns preserved,
independent of the resolver's answer. -/
theorem C5_shift_of_original (cmd : MoveLinesCommand) (helper : Option Nat → Selection) :
    cmd.computeCursorState helper =
      (if cmd.isMovingDown then
        ⟨cmd.selection.startLineNumber + 1, cmd.selection.startColumn,
         cmd.selection.endLineNumber + 1, cmd.selection.endColumn⟩
      else
        ⟨cmd.selection.startLineNumber - 1, cmd.selection.startColumn,
         cmd.selection.endLineNumber - 1, cmd.selection.endColumn⟩) := by
  rfl

/-- Claim C10: on every execution that takes the real-edit path (the
first-in-batch command, not stopped by a boundary check), the
`_selectionId` field is still `none` afterwards — the token returned by
`builder.trackSelection` on that path is discarded, and only the two
boundary no-op paths assign `_selectionId` — so `computeCursorState`
evaluates its non-null assertion on a null token. -/
theorem C10_selectionId_none_on_edit_path (cmd : MoveLinesCommand) (env : LangEnv)
    (model : TextModel) (builder : Builder)
    (h0 : cmd.selectionId = none)
    (hf : cmd.isFirstInBatch = true)
    (hd : ¬(cmd.isMovingDown = true ∧ cmd.batch.endLineNumberExclusive - 1 = model.getLineCount))
    (hu : ¬(cmd.isMovingDown = false ∧ cmd.batch.startLineNumber = 1)) :
    ((cmd.getEditOperations env model builder).1).selectionId = none := by
  unfold MoveLinesCommand.getEditOperations
  rw [if_neg hd, if_neg hu]
  simp only [hf, if_true]
  split <;> first
    | exact h0
    | (split <;> first
        | exact h0
        | (split <;> exact h0))

/-- Witness for claim C10: the first-in-batch move-down command of the
running example (not at a boundary) finishes `getEditOperations` with
`_selectionId` still `none`. -/
theorem C10_selectionId_none_witness :
    ((cmdC1.getEditOperations envTriv modelC1 Builder.empty).1).selectionId = none :=
  C10_selectionId_none_on_edit_path cmdC1 envTriv modelC1 Builder.empty rfl rfl
    (by decide) (by decide)

end MoveLines
